import Mathlib

/-!
Shallow embedding of the vector-search service
(`app/controller/search_controller.py`, `app/service/pinecone_service.py`).

Scores are modelled as rationals; the metadata mapping attached to a vector is
modelled as an association list of strings. External collaborators (the image
fetch, the embedding model, the vector store) are passed in as `Except` values
describing the outcome of the corresponding call.
-/

set_option maxRecDepth 40000

/-- A metadata mapping attached to a stored vector or a scored result. -/
abbrev Metadata := List (String × String)

/-- A scored result as assembled by `query_similar_products`:
`{"product_id": ..., "score": ..., "metadata": ...}`. -/
structure ScoredResult where
  product_id : String
  score : ℚ
  metadata : Metadata
deriving DecidableEq

/-- One step of building the `merged` dictionary in `_deduplicate_and_rank`:
`if pid not in merged or score > merged[pid]["score"]: merged[pid] = item`.
The insertion-ordered dict is modelled as an association list with unique keys:
updating an existing key keeps its position, a new key is appended at the end. -/
def insertItem : List ScoredResult → ScoredResult → List ScoredResult
  | [], item => [item]
  | x :: xs, item =>
    if x.product_id = item.product_id then
      (if item.score > x.score then item else x) :: xs
    else
      x :: insertItem xs item

/-- The `merged` dictionary of `_deduplicate_and_rank` after the loop
`for item in results`, as its insertion-ordered list of values. -/
def mergeDict (results : List ScoredResult) : List ScoredResult :=
  results.foldl insertItem []

/-- The descending-by-score order used by
`sorted(merged.values(), key=lambda x: x["score"], reverse=True)`. -/
def scoreGe (a b : ScoredResult) : Prop := b.score ≤ a.score

instance : DecidableRel scoreGe := fun a b =>
  inferInstanceAs (Decidable (b.score ≤ a.score))

instance : IsTotal ScoredResult scoreGe := ⟨fun a b => le_total b.score a.score⟩

instance : IsTrans ScoredResult scoreGe :=
  ⟨fun _ _ _ h1 h2 => le_trans h2 h1⟩

/-- `_deduplicate_and_rank(results)`: deduplicate by `product_id` keeping the best
score, then sort by score descending.  Python's `sorted` is a stable sort, which
`List.insertionSort` implements. -/
def deduplicate_and_rank (results : List ScoredResult) : List ScoredResult :=
  List.insertionSort scoreGe (mergeDict results)

/-- The value the `merged` dict of `_deduplicate_and_rank` ends up holding for key
`p`, computed directly from the input list: the first entry with identifier `p`
whose score equals the maximum score among entries with identifier `p`. -/
def bestFor (p : String) : List ScoredResult → Option ScoredResult
  | [] => none
  | x :: xs =>
    if x.product_id = p then
      match bestFor p xs with
      | none => some x
      | some y => some (if y.score > x.score then y else x)
    else bestFor p xs

/-- Combining the dict value accumulated so far with the best entry of the
remaining input: keep the earlier one unless the later strictly beats it. -/
def merge2 : Option ScoredResult → Option ScoredResult → Option ScoredResult
  | none, o => o
  | some a, none => some a
  | some a, some b => some (if b.score > a.score then b else a)

/-- Looking a key up in the association-list model of the `merged` dict. -/
def lookupPid (p : String) (m : List ScoredResult) : Option ScoredResult :=
  m.find? (fun x => x.product_id == p)

/-! ## `pinecone_service.query_similar_products` -/

/-- A raw match returned by the vector store: `{"id": ..., "score": ...,
"metadata": ...}`. The score is the store's native similarity score. -/
structure StoreMatch where
  id : String
  score : ℚ
  metadata : Metadata
deriving DecidableEq

/-- Python's `round` to the nearest integer, halves to even, on a rational. -/
def roundHalfEven (q : ℚ) : ℤ :=
  if q - ⌊q⌋ < 1/2 then ⌊q⌋
  else if 1/2 < q - ⌊q⌋ then ⌊q⌋ + 1
  else if ⌊q⌋ % 2 = 0 then ⌊q⌋ else ⌊q⌋ + 1

/-- `normalized_score = round(score * 100, 2)` in `query_similar_products`. -/
def normalizeScore (score : ℚ) : ℚ :=
  (roundHalfEven (score * 100 * 100) : ℚ) / 100

/-- `expected_dim = 512 if index_type == "image" else 768`. -/
def expectedDim (index_type : String) : ℕ :=
  if index_type = "image" then 512 else 768

/-- Outcome of a call to `query_similar_products`: what the function returns or
raises, plus whether it reached the `index.query(...)` call. -/
structure QueryCall where
  result : Except String (List ScoredResult)
  storeCalled : Bool

/-- `query_similar_products(query_embedding, top_k, filters, index_type)`.
The store is an external collaborator, so the outcome of `index.query(...)` is
a parameter: `Except.error` when the store raises, `Except.ok matches`
otherwise (`top_k` and the filters are already reflected in that outcome).
A raised store exception is caught by the `try/except` and turned into an empty
result list; the dimension check happens before the `try` block, so its
`ValueError` propagates to the caller and no store call is made. -/
def query_similar_products (query_embedding : List ℚ) (top_k : ℕ)
    (index_type : String) (store : Except String (List StoreMatch)) : QueryCall :=
  if query_embedding.length ≠ expectedDim index_type then
    { result := Except.error ("Embedding dimension " ++
        toString query_embedding.length ++ " does not match " ++
        toString (expectedDim index_type) ++ " for " ++ index_type ++ " index"),
      storeCalled := false }
  else
    match store with
    | Except.error _ => { result := Except.ok [], storeCalled := true }
    | Except.ok ms =>
        let results := ms.map (fun m =>
          { product_id := m.id, score := normalizeScore m.score,
            metadata := m.metadata })
        { result := Except.ok (List.insertionSort scoreGe results),
          storeCalled := true }


/-! ## Controller models: text search, recommendations, ingestion text -/

instance {e a : Type} [DecidableEq e] [DecidableEq a] :
    DecidableEq (Except e a) := fun x y =>
  match x, y with
  | Except.ok u, Except.ok v =>
      if h : u = v then isTrue (by rw [h]) else
        isFalse (fun hc => h (Except.ok.inj hc))
  | Except.error u, Except.error v =>
      if h : u = v then isTrue (by rw [h]) else
        isFalse (fun hc => h (Except.error.inj hc))
  | Except.ok _, Except.error _ => isFalse (fun hc => Except.noConfusion hc)
  | Except.error _, Except.ok _ => isFalse (fun hc => Except.noConfusion hc)

/-- An HTTP error raised by a controller: `HTTPException(status_code, detail)`. -/
structure HttpError where
  status_code : ℕ
  detail : String
deriving DecidableEq

/-- Python `str.strip()`: remove whitespace from both ends. -/
def pyStrip (s : String) : String :=
  ⟨((s.data.dropWhile Char.isWhitespace).reverse.dropWhile
      Char.isWhitespace).reverse⟩

/-- The JSON body returned by `similar_product_text_search` on success. -/
structure TextSearchResponse where
  status : Bool
  query : String
  count : ℕ
  results : List ScoredResult
deriving DecidableEq

/-- `similar_product_text_search(query, top_k)`. The text-embedding call and
the store call are external collaborators, so their outcomes are parameters; an
`Except.error` embedding models `get_text_embedding` raising, which the
controller's generic handler turns into a 500 response.  `not query or not
query.strip()` is equivalent to `query.strip() == ""`. -/
def similar_product_text_search (query : String) (top_k : ℕ)
    (embedding : Except String (List ℚ))
    (store : Except String (List StoreMatch)) :
    Except HttpError TextSearchResponse :=
  if pyStrip query = "" then Except.error ⟨400, "Query cannot be empty."⟩
  else
    match embedding with
    | Except.error e =>
        Except.error ⟨500, "Failed to perform text search: " ++ e⟩
    | Except.ok emb =>
      match (query_similar_products emb top_k "text" store).result with
      | Except.error e =>
          Except.error ⟨500, "Failed to perform text search: " ++ e⟩
      | Except.ok results =>
          Except.ok { status := true, query := query,
                      count := results.length, results := results }

/-- Python truthiness of an optional form string: `None` and `""` are falsy. -/
def truthy : Option String → Bool
  | none => false
  | some s => !(s == "")

/-- The JSON body returned by `get_recommendations` on success. -/
structure RecResponse where
  status : Bool
  mode : String
  count : ℕ
  recommendations : List ScoredResult
deriving DecidableEq

/-- One recommendation branch of `get_recommendations`: fetch/embed (which may
raise), then `query_similar_products`; any exception inside the branch `try`
(including the dimension `ValueError`) is caught, logged and yields zero
results for the branch. -/
def recommendationBranch (fetchEmbed : Except String (List ℚ)) (top_k : ℕ)
    (index_type : String) (store : Except String (List StoreMatch)) :
    List ScoredResult :=
  match fetchEmbed with
  | Except.error _ => []
  | Except.ok emb =>
    match (query_similar_products emb top_k index_type store).result with
    | Except.error _ => []
    | Except.ok rs => rs

/-- `combined_results` after the two branch blocks of `get_recommendations`:
the image branch runs when the mode enables it and `image_url` is truthy, the
text branch when the mode enables it and `product_name or description` is
truthy. -/
def combinedRecommendations (product_name description image_url : Option String)
    (mode : String) (top_k : ℕ)
    (imageFetchEmbed : Except String (List ℚ))
    (imageStore : Except String (List StoreMatch))
    (textEmbed : Except String (List ℚ))
    (textStore : Except String (List StoreMatch)) : List ScoredResult :=
  (if (mode = "image" ∨ mode = "hybrid") ∧ truthy image_url then
      recommendationBranch imageFetchEmbed top_k "image" imageStore
    else []) ++
  (if (mode = "text" ∨ mode = "hybrid") ∧
      (truthy product_name ∨ truthy description) then
      recommendationBranch textEmbed top_k "text" textStore
    else [])

/-- `get_recommendations(...)`: reject a missing product id with 400, raise 404
when the concatenated branch results are empty, otherwise return the merged and
ranked list. -/
def get_recommendations (product_id : String)
    (product_name description image_url : Option String)
    (mode : String) (top_k : ℕ)
    (imageFetchEmbed : Except String (List ℚ))
    (imageStore : Except String (List StoreMatch))
    (textEmbed : Except String (List ℚ))
    (textStore : Except String (List StoreMatch)) :
    Except HttpError RecResponse :=
  if product_id = "" then Except.error ⟨400, "Product ID is required."⟩
  else if combinedRecommendations product_name description image_url mode top_k
      imageFetchEmbed imageStore textEmbed textStore = [] then
    Except.error ⟨404, "No recommendations found."⟩
  else
    Except.ok
      { status := true, mode := mode,
        count := (deduplicate_and_rank (combinedRecommendations product_name
          description image_url mode top_k imageFetchEmbed imageStore textEmbed
          textStore)).length,
        recommendations := deduplicate_and_rank (combinedRecommendations
          product_name description image_url mode top_k imageFetchEmbed
          imageStore textEmbed textStore) }

/-- A product submitted for ingestion (`ProductRequest`). -/
structure Product where
  imageUrl : String
  name : String
  description : String
  category : String
  brand : Option String
  price : Option ℚ
  productId : Option String
deriving DecidableEq

/-- Python `{x or \'\'}` for an optional string field. -/
def orEmpty : Option String → String
  | none => ""
  | some s => s

/-- Python `{price or \'\'}` for the optional price: `None` and `0` are falsy;
`showPrice` stands for Python float formatting. -/
def priceOrEmpty (showPrice : ℚ → String) : Option ℚ → String
  | none => ""
  | some q => if q = 0 then "" else showPrice q

/-- The combined text string built in step 2 of `embed_multiple_products`:
`f"{name}. {description}. Category: {category}. Brand: {brand or \'\'}. Price: {price or \'\'}."`. -/
def text_input (showPrice : ℚ → String) (p : Product) : String :=
  p.name ++ ". " ++ p.description ++ ". " ++
    "Category: " ++ p.category ++ ". Brand: " ++ orEmpty p.brand ++
    ". Price: " ++ priceOrEmpty showPrice p.price ++ "."

lemma insertItem_pids (m : List ScoredResult) (item : ScoredResult) :
    (insertItem m item).map ScoredResult.product_id =
      if item.product_id ∈ m.map ScoredResult.product_id
      then m.map ScoredResult.product_id
      else m.map ScoredResult.product_id ++ [item.product_id] := by
  induction m with
  | nil => simp [insertItem]
  | cons x xs ih =>
    simp only [insertItem]
    by_cases h : x.product_id = item.product_id
    · have hpid : (if item.score > x.score then item else x).product_id =
          x.product_id := by split <;> simp [h]
      simp [h, hpid]
    · simp only [if_neg h, List.map_cons, ih, List.mem_cons]
      by_cases h2 : item.product_id ∈ xs.map ScoredResult.product_id
      · simp [h2]
      · rw [if_neg h2, if_neg]
        · simp
        · intro hc
          rcases hc with hc | hc
          · exact h hc.symm
          · exact h2 hc

lemma insertItem_pids_nodup (m : List ScoredResult) (item : ScoredResult)
    (h : (m.map ScoredResult.product_id).Nodup) :
    ((insertItem m item).map ScoredResult.product_id).Nodup := by
  rw [insertItem_pids]
  split
  · exact h
  · next h2 =>
      rw [List.nodup_append]
      refine ⟨h, List.nodup_singleton _, ?_⟩
      intro a ha hb
      simp only [List.mem_singleton] at hb
      subst hb
      exact h2 ha

lemma mem_insertItem {m : List ScoredResult} {item r : ScoredResult}
    (h : r ∈ insertItem m item) : r ∈ m ∨ r = item := by
  induction m with
  | nil => simpa [insertItem] using h
  | cons x xs ih =>
    simp only [insertItem] at h
    by_cases hx : x.product_id = item.product_id
    · rw [if_pos hx] at h
      rcases List.mem_cons.mp h with h1 | h1
      · split at h1
        · exact Or.inr h1
        · exact Or.inl (by simp [h1])
      · exact Or.inl (List.mem_cons_of_mem _ h1)
    · rw [if_neg hx] at h
      rcases List.mem_cons.mp h with h1 | h1
      · exact Or.inl (by simp [h1])
      · rcases ih h1 with h2 | h2
        · exact Or.inl (List.mem_cons_of_mem _ h2)
        · exact Or.inr h2

lemma insertItem_length (m : List ScoredResult) (item : ScoredResult) :
    (insertItem m item).length ≤ m.length + 1 := by
  induction m with
  | nil => simp [insertItem]
  | cons x xs ih =>
    simp only [insertItem]
    split
    · simp
    · simpa using Nat.succ_le_succ ih

lemma insertItem_length_ge (m : List ScoredResult) (item : ScoredResult) :
    m.length ≤ (insertItem m item).length := by
  induction m with
  | nil => simp [insertItem]
  | cons x xs ih =>
    simp only [insertItem]
    split
    · simp
    · simpa using Nat.succ_le_succ ih

lemma lookupPid_cons_pos {x : ScoredResult} {xs : List ScoredResult} {p : String}
    (h : x.product_id = p) : lookupPid p (x :: xs) = some x := by
  simp [lookupPid, List.find?_cons_of_pos, h]

lemma lookupPid_cons_neg {x : ScoredResult} {xs : List ScoredResult} {p : String}
    (h : x.product_id ≠ p) : lookupPid p (x :: xs) = lookupPid p xs := by
  simp only [lookupPid]
  rw [List.find?_cons_of_neg]
  simpa using h

lemma merge2_assoc (a b c : Option ScoredResult) :
    merge2 (merge2 a b) c = merge2 a (merge2 b c) := by
  cases a <;> cases b <;> cases c <;> simp only [merge2] <;>
    split_ifs <;> simp only [not_lt, gt_iff_lt] at * <;>
    first
      | rfl
      | (exfalso; linarith)

lemma lookupPid_insertItem (p : String) (m : List ScoredResult)
    (item : ScoredResult) :
    lookupPid p (insertItem m item) =
      if item.product_id = p then merge2 (lookupPid p m) (some item)
      else lookupPid p m := by
  induction m with
  | nil =>
    by_cases h : item.product_id = p
    · rw [if_pos h, insertItem]
      rw [lookupPid_cons_pos h]
      rfl
    · rw [if_neg h, insertItem]
      rw [lookupPid_cons_neg h]
  | cons x xs ih =>
    simp only [insertItem]
    by_cases hx : x.product_id = item.product_id
    · rw [if_pos hx]
      by_cases hp : item.product_id = p
      · have hxp : x.product_id = p := hx.trans hp
        have hzp : (if item.score > x.score then item else x).product_id = p := by
          split
          · exact hp
          · exact hxp
        rw [if_pos hp, lookupPid_cons_pos hzp, lookupPid_cons_pos hxp]
        rfl
      · have hxp : x.product_id ≠ p := fun hc => hp (hx ▸ hc)
        have hzp : (if item.score > x.score then item else x).product_id ≠ p := by
          split
          · exact hp
          · exact hxp
        rw [if_neg hp, lookupPid_cons_neg hzp, lookupPid_cons_neg hxp]
    · rw [if_neg hx]
      by_cases hxp : x.product_id = p
      · have hip : item.product_id ≠ p := fun hc => hx (hxp.trans hc.symm)
        rw [if_neg hip, lookupPid_cons_pos hxp, lookupPid_cons_pos hxp]
      · rw [lookupPid_cons_neg hxp, ih, lookupPid_cons_neg hxp]

lemma lookupPid_foldl (p : String) (l : List ScoredResult) :
    ∀ acc, lookupPid p (l.foldl insertItem acc) =
      merge2 (lookupPid p acc) (bestFor p l) := by
  induction l with
  | nil =>
    intro acc
    cases h : lookupPid p acc <;> simp [bestFor, merge2, h]
  | cons x xs ih =>
    intro acc
    rw [List.foldl_cons, ih, lookupPid_insertItem]
    have hb : (bestFor p (x :: xs)) =
        if x.product_id = p then merge2 (some x) (bestFor p xs)
        else bestFor p xs := by
      rw [bestFor]
      split
      · cases bestFor p xs <;> rfl
      · rfl
    rw [hb]
    by_cases hx : x.product_id = p
    · rw [if_pos hx, if_pos hx, merge2_assoc]
    · rw [if_neg hx, if_neg hx]

lemma lookupPid_mergeDict (p : String) (l : List ScoredResult) :
    lookupPid p (mergeDict l) = bestFor p l := by
  rw [mergeDict, lookupPid_foldl]
  rfl

lemma bestFor_eq_none_iff (p : String) (l : List ScoredResult) :
    bestFor p l = none ↔ ∀ x ∈ l, x.product_id ≠ p := by
  induction l with
  | nil => simp [bestFor]
  | cons x xs ih =>
    rw [bestFor]
    by_cases hx : x.product_id = p
    · rw [if_pos hx]
      constructor
      · intro h
        cases hb : bestFor p xs <;> rw [hb] at h <;> exact absurd h (by simp)
      · intro h
        exact absurd hx (h x (List.mem_cons_self _ _))
    · rw [if_neg hx, ih]
      constructor
      · intro h y hy
        rcases List.mem_cons.mp hy with hy | hy
        · exact hy ▸ hx
        · exact h y hy
      · intro h y hy
        exact h y (List.mem_cons_of_mem _ hy)

lemma bestFor_spec (p : String) (l : List ScoredResult) (r : ScoredResult)
    (h : bestFor p l = some r) :
    r.product_id = p ∧
      ∃ t1 t2, l = t1 ++ r :: t2 ∧
        (∀ x ∈ t1, x.product_id = p → x.score < r.score) ∧
        (∀ x ∈ t2, x.product_id = p → x.score ≤ r.score) := by
  induction l generalizing r with
  | nil => exact absurd h (by simp [bestFor])
  | cons x xs ih =>
    rw [bestFor] at h
    by_cases hx : x.product_id = p
    · rw [if_pos hx] at h
      cases hb : bestFor p xs with
      | none =>
        rw [hb] at h
        have hr : x = r := by simpa using h
        subst hr
        refine ⟨hx, [], xs, by simp, by simp, ?_⟩
        intro y hy hyp
        exact absurd hyp ((bestFor_eq_none_iff p xs).mp hb y hy)
      | some y =>
        rw [hb] at h
        obtain ⟨hyp, t1, t2, ht, hlt, hle⟩ := ih y hb
        by_cases hgt : y.score > x.score
        · have hr : y = r := by simpa [hgt] using h
          subst hr
          refine ⟨hyp, x :: t1, t2, by simp [ht], ?_, hle⟩
          intro z hz hzp
          rcases List.mem_cons.mp hz with hz | hz
          · exact hz ▸ hgt
          · exact hlt z hz hzp
        · have hr : x = r := by simpa [hgt] using h
          subst hr
          refine ⟨hx, [], xs, by simp, by simp, ?_⟩
          intro z hz hzp
          have hyx : y.score ≤ x.score := not_lt.mp hgt
          rw [ht] at hz
          rcases List.mem_append.mp hz with hz | hz
          · exact le_trans (le_of_lt (hlt z hz hzp)) hyx
          · rcases List.mem_cons.mp hz with hz | hz
            · exact hz ▸ hyx
            · exact le_trans (hle z hz hzp) hyx
    · rw [if_neg hx] at h
      obtain ⟨hyp, t1, t2, ht, hlt, hle⟩ := ih r h
      refine ⟨hyp, x :: t1, t2, by simp [ht], ?_, hle⟩
      intro z hz hzp
      rcases List.mem_cons.mp hz with hz | hz
      · exact absurd (hz ▸ hzp) hx
      · exact hlt z hz hzp

lemma mergeDict_pids_nodup (l : List ScoredResult) :
    ((mergeDict l).map ScoredResult.product_id).Nodup := by
  rw [mergeDict]
  have key : ∀ acc : List ScoredResult,
      ((acc.map ScoredResult.product_id).Nodup) →
      (((l.foldl insertItem acc).map ScoredResult.product_id).Nodup) := by
    induction l with
    | nil => exact fun acc h => h
    | cons x xs ih =>
      intro acc h
      exact ih _ (insertItem_pids_nodup _ _ h)
  exact key [] (by simp)

lemma mem_foldl_insertItem {l : List ScoredResult} {r : ScoredResult} :
    ∀ {acc : List ScoredResult}, r ∈ l.foldl insertItem acc → r ∈ acc ∨ r ∈ l := by
  induction l with
  | nil => exact fun h => Or.inl h
  | cons x xs ih =>
    intro acc h
    rcases ih (by simpa using h) with h1 | h1
    · rcases mem_insertItem h1 with h2 | h2
      · exact Or.inl h2
      · exact Or.inr (by simp [h2])
    · exact Or.inr (List.mem_cons_of_mem _ h1)

lemma mem_mergeDict {l : List ScoredResult} {r : ScoredResult}
    (h : r ∈ mergeDict l) : r ∈ l := by
  rcases @mem_foldl_insertItem l r [] h with h1 | h1
  · exact absurd h1 (List.not_mem_nil r)
  · exact h1

lemma mergeDict_length_le (l : List ScoredResult) :
    (mergeDict l).length ≤ l.length := by
  rw [mergeDict]
  have key : ∀ acc : List ScoredResult,
      (l.foldl insertItem acc).length ≤ acc.length + l.length := by
    induction l with
    | nil => simp
    | cons x xs ih =>
      intro acc
      calc ((x :: xs).foldl insertItem acc).length
          ≤ (insertItem acc x).length + xs.length := ih _
        _ ≤ (acc.length + 1) + xs.length :=
            Nat.add_le_add_right (insertItem_length acc x) _
        _ = acc.length + (x :: xs).length := by simp; omega
  simpa using key []

lemma foldl_insertItem_length_ge (l : List ScoredResult) :
    ∀ acc : List ScoredResult, acc.length ≤ (l.foldl insertItem acc).length := by
  induction l with
  | nil => intro acc; simp
  | cons x xs ih =>
    intro acc
    exact le_trans (insertItem_length_ge acc x) (by simpa using ih (insertItem acc x))

lemma mergeDict_ne_nil {l : List ScoredResult} (h : l ≠ []) : mergeDict l ≠ [] := by
  cases l with
  | nil => exact absurd rfl h
  | cons x xs =>
    have h1 : 1 ≤ (mergeDict (x :: xs)).length := by
      rw [mergeDict, List.foldl_cons]
      calc 1 = (insertItem [] x).length := rfl
        _ ≤ _ := foldl_insertItem_length_ge xs _
    intro hc
    rw [hc] at h1
    exact absurd h1 (by simp)

lemma insertItem_of_not_mem {m : List ScoredResult} {item : ScoredResult}
    (h : item.product_id ∉ m.map ScoredResult.product_id) :
    insertItem m item = m ++ [item] := by
  induction m with
  | nil => rfl
  | cons x xs ih =>
    simp only [List.map_cons, List.mem_cons, not_or] at h
    simp only [insertItem, if_neg (fun hc : x.product_id = item.product_id => h.1 hc.symm),
      ih h.2, List.cons_append]

lemma mergeDict_of_nodup {l : List ScoredResult}
    (h : (l.map ScoredResult.product_id).Nodup) : mergeDict l = l := by
  have key : ∀ (l2 acc : List ScoredResult),
      (((acc ++ l2).map ScoredResult.product_id).Nodup) →
      l2.foldl insertItem acc = acc ++ l2 := by
    intro l2
    induction l2 with
    | nil => intro acc _; simp
    | cons x xs ih =>
      intro acc hn
      have hx : x.product_id ∉ acc.map ScoredResult.product_id := by
        rw [List.map_append, List.nodup_append] at hn
        intro hc
        exact hn.2.2 hc (by simp)
      have h2 : (((acc ++ [x]) ++ xs).map ScoredResult.product_id).Nodup := by
        have he : (acc ++ [x]) ++ xs = acc ++ x :: xs := by simp
        rw [he]
        exact hn
      rw [List.foldl_cons, insertItem_of_not_mem hx, ih _ h2]
      simp
  rw [mergeDict, key l [] (by simpa using h)]
  simp

lemma dedup_perm (l : List ScoredResult) :
    (deduplicate_and_rank l).Perm (mergeDict l) :=
  List.perm_insertionSort scoreGe (mergeDict l)

lemma dedup_pids_nodup (l : List ScoredResult) :
    ((deduplicate_and_rank l).map ScoredResult.product_id).Nodup :=
  ((dedup_perm l).map ScoredResult.product_id).nodup_iff.mpr (mergeDict_pids_nodup l)

lemma dedup_sorted (l : List ScoredResult) :
    List.Sorted scoreGe (deduplicate_and_rank l) :=
  List.sorted_insertionSort scoreGe (mergeDict l)

lemma bestFor_mem_dedup {l : List ScoredResult} {p : String} {r : ScoredResult}
    (hb : bestFor p l = some r) : r ∈ deduplicate_and_rank l := by
  have hl := lookupPid_mergeDict p l
  rw [hb] at hl
  exact (dedup_perm l).mem_iff.mpr (List.mem_of_find?_eq_some hl)

/-- C1: for every input list, the output of `_deduplicate_and_rank` contains
exactly one entry per `product_id` occurring in the input, and that entry's
score equals the maximum score among all input entries with that `product_id`. -/
theorem dedup_and_rank_unique_max (l : List ScoredResult) (p : String)
    (hp : ∃ x ∈ l, x.product_id = p) :
    ∃ r ∈ deduplicate_and_rank l, r.product_id = p ∧
      (∀ r2 ∈ deduplicate_and_rank l, r2.product_id = p → r2 = r) ∧
      (∃ x ∈ l, x.product_id = p ∧ x.score = r.score) ∧
      (∀ x ∈ l, x.product_id = p → x.score ≤ r.score) := by
  obtain ⟨x0, hx0, hx0p⟩ := hp
  cases hb : bestFor p l with
  | none => exact absurd hx0p ((bestFor_eq_none_iff p l).mp hb x0 hx0)
  | some r =>
    obtain ⟨hrp, t1, t2, ht, hlt, hle⟩ := bestFor_spec p l r hb
    have hrout : r ∈ deduplicate_and_rank l := bestFor_mem_dedup hb
    refine ⟨r, hrout, hrp, ?_, ?_, ?_⟩
    · intro r2 hr2 hr2p
      exact List.inj_on_of_nodup_map (dedup_pids_nodup l) hr2 hrout
        (by rw [hr2p, hrp])
    · refine ⟨r, ?_, hrp, rfl⟩
      rw [ht]
      exact List.mem_append.mpr (Or.inr (List.mem_cons_self _ _))
    · intro x hx hxp
      rw [ht] at hx
      rcases List.mem_append.mp hx with h1 | h1
      · exact le_of_lt (hlt x h1 hxp)
      · rcases List.mem_cons.mp h1 with h1 | h1
        · exact le_of_eq (by rw [h1])
        · exact hle x h1 hxp

/-- Witness for C1 at the spec scenario
`[{id:"a",score:80},{id:"b",score:90},{id:"a",score:95}]`. -/
theorem dedup_and_rank_unique_max_witness :
    (∃ x ∈ [(⟨"a", 80, []⟩ : ScoredResult), ⟨"b", 90, []⟩, ⟨"a", 95, []⟩],
        x.product_id = "a") ∧
    ∃ r ∈ deduplicate_and_rank
        [(⟨"a", 80, []⟩ : ScoredResult), ⟨"b", 90, []⟩, ⟨"a", 95, []⟩],
      r.product_id = "a" ∧
      (∀ r2 ∈ deduplicate_and_rank
          [(⟨"a", 80, []⟩ : ScoredResult), ⟨"b", 90, []⟩, ⟨"a", 95, []⟩],
        r2.product_id = "a" → r2 = r) ∧
      (∃ x ∈ [(⟨"a", 80, []⟩ : ScoredResult), ⟨"b", 90, []⟩, ⟨"a", 95, []⟩],
        x.product_id = "a" ∧ x.score = r.score) ∧
      (∀ x ∈ [(⟨"a", 80, []⟩ : ScoredResult), ⟨"b", 90, []⟩, ⟨"a", 95, []⟩],
        x.product_id = "a" → x.score ≤ r.score) :=
  ⟨by decide, dedup_and_rank_unique_max
    [⟨"a", 80, []⟩, ⟨"b", 90, []⟩, ⟨"a", 95, []⟩] "a" (by decide)⟩

/-- C2: the output of `_deduplicate_and_rank` is sorted non-increasing by score:
each entry's score is at least the score of the entry that follows it. -/
theorem dedup_and_rank_sorted_desc (l : List ScoredResult) (i : ℕ)
    (h : i + 1 < (deduplicate_and_rank l).length) :
    ((deduplicate_and_rank l).get ⟨i + 1, h⟩).score ≤
      ((deduplicate_and_rank l).get ⟨i, Nat.lt_of_succ_lt h⟩).score :=
  (dedup_sorted l).rel_get_of_lt (by simp [Fin.lt_def])

/-- Witness for C2 at the spec scenario input, comparing positions 0 and 1. -/
theorem dedup_and_rank_sorted_desc_witness :
    0 + 1 < (deduplicate_and_rank
      [(⟨"a", 80, []⟩ : ScoredResult), ⟨"b", 90, []⟩, ⟨"a", 95, []⟩]).length ∧
    ((deduplicate_and_rank
      [(⟨"a", 80, []⟩ : ScoredResult), ⟨"b", 90, []⟩, ⟨"a", 95, []⟩]).get
        ⟨0 + 1, by decide⟩).score ≤
      ((deduplicate_and_rank
        [(⟨"a", 80, []⟩ : ScoredResult), ⟨"b", 90, []⟩, ⟨"a", 95, []⟩]).get
        ⟨0, by decide⟩).score :=
  ⟨by decide, dedup_and_rank_sorted_desc
    [⟨"a", 80, []⟩, ⟨"b", 90, []⟩, ⟨"a", 95, []⟩] 0 (by decide)⟩

/-- C3: `_deduplicate_and_rank` is idempotent — applying it to its own output
yields that output unchanged. -/
theorem dedup_and_rank_idempotent (l : List ScoredResult) :
    deduplicate_and_rank (deduplicate_and_rank l) = deduplicate_and_rank l := by
  rw [deduplicate_and_rank, mergeDict_of_nodup (dedup_pids_nodup l),
    List.Sorted.insertionSort_eq (dedup_sorted l)]

/-- C4: for each identifier present in the input, `_deduplicate_and_rank` keeps
the first-occurring entry among those achieving the maximum score: the input
splits as `t1 ++ r :: t2` where every earlier entry with the same identifier has
a strictly smaller score (so on an exact score tie the first occurrence wins),
and no later entry with the same identifier has a strictly larger score. -/
theorem dedup_and_rank_first_wins (l : List ScoredResult) (p : String)
    (hp : ∃ x ∈ l, x.product_id = p) :
    ∃ r ∈ deduplicate_and_rank l, r.product_id = p ∧
      ∃ t1 t2, l = t1 ++ r :: t2 ∧
        (∀ x ∈ t1, x.product_id = p → x.score < r.score) ∧
        (∀ x ∈ t2, x.product_id = p → x.score ≤ r.score) := by
  obtain ⟨x0, hx0, hx0p⟩ := hp
  cases hb : bestFor p l with
  | none => exact absurd hx0p ((bestFor_eq_none_iff p l).mp hb x0 hx0)
  | some r =>
    obtain ⟨hrp, t1, t2, ht, hlt, hle⟩ := bestFor_spec p l r hb
    exact ⟨r, bestFor_mem_dedup hb, hrp, t1, t2, ht, hlt, hle⟩

/-- Witness for C4 on a tie: two entries with identifier `"a"` and score 95;
the first one (empty metadata) is kept. -/
theorem dedup_and_rank_first_wins_witness :
    (∃ x ∈ [(⟨"a", 95, []⟩ : ScoredResult), ⟨"b", 90, []⟩,
        ⟨"a", 95, [("dup", "1")]⟩], x.product_id = "a") ∧
    ∃ r ∈ deduplicate_and_rank [(⟨"a", 95, []⟩ : ScoredResult), ⟨"b", 90, []⟩,
        ⟨"a", 95, [("dup", "1")]⟩],
      r.product_id = "a" ∧
      ∃ t1 t2, [(⟨"a", 95, []⟩ : ScoredResult), ⟨"b", 90, []⟩,
          ⟨"a", 95, [("dup", "1")]⟩] = t1 ++ r :: t2 ∧
        (∀ x ∈ t1, x.product_id = "a" → x.score < r.score) ∧
        (∀ x ∈ t2, x.product_id = "a" → x.score ≤ r.score) :=
  ⟨by decide, dedup_and_rank_first_wins
    [⟨"a", 95, []⟩, ⟨"b", 90, []⟩, ⟨"a", 95, [("dup", "1")]⟩] "a" (by decide)⟩

/-- C10: every entry of the output of `_deduplicate_and_rank` is one of the
input entries unchanged; the output is never longer than the input; the empty
input yields the empty output. -/
theorem dedup_and_rank_entries_from_input (l : List ScoredResult) :
    (∀ r ∈ deduplicate_and_rank l, r ∈ l) ∧
      (deduplicate_and_rank l).length ≤ l.length ∧
      deduplicate_and_rank [] = [] := by
  refine ⟨?_, ?_, rfl⟩
  · intro r hr
    exact mem_mergeDict ((dedup_perm l).mem_iff.mp hr)
  · rw [(dedup_perm l).length_eq]
    exact mergeDict_length_le l

/-- C5: a query vector whose length differs from the expected dimension (512
for index type `"image"`, 768 for `"text"`) makes `query_similar_products`
raise a validation error, and the vector store is never called. -/
theorem query_dim_mismatch_rejected (emb : List ℚ) (top_k : ℕ)
    (index_type : String) (store : Except String (List StoreMatch))
    (h : (index_type = "image" ∧ emb.length ≠ 512) ∨
         (index_type = "text" ∧ emb.length ≠ 768)) :
    (query_similar_products emb top_k index_type store).storeCalled = false ∧
      ∃ msg, (query_similar_products emb top_k index_type store).result =
        Except.error msg := by
  have hne : emb.length ≠ expectedDim index_type := by
    rcases h with ⟨h1, h2⟩ | ⟨h1, h2⟩
    · subst h1
      rw [show expectedDim "image" = 512 from by decide]
      exact h2
    · subst h1
      rw [show expectedDim "text" = 768 from by decide]
      exact h2
  rw [query_similar_products.eq_def, if_pos hne]
  exact ⟨rfl, _, rfl⟩

/-- Witness for C5: the empty vector against the image index is rejected. -/
theorem query_dim_mismatch_rejected_witness :
    ((("image" : String) = "image" ∧ ([] : List ℚ).length ≠ 512) ∨
      (("image" : String) = "text" ∧ ([] : List ℚ).length ≠ 768)) ∧
    ((query_similar_products [] 10 "image"
        (Except.ok [])).storeCalled = false ∧
      ∃ msg, (query_similar_products [] 10 "image"
        (Except.ok [])).result = Except.error msg) :=
  ⟨Or.inl ⟨rfl, by decide⟩,
    query_dim_mismatch_rejected [] 10 "image" (Except.ok [])
      (Or.inl ⟨rfl, by decide⟩)⟩

lemma roundHalfEven_bounds (q : ℚ) :
    ⌊q⌋ ≤ roundHalfEven q ∧ roundHalfEven q ≤ ⌈q⌉ := by
  have hfc : ⌊q⌋ ≤ ⌈q⌉ := Int.floor_le_ceil q
  have hfl : (⌊q⌋ : ℚ) ≤ q := Int.floor_le q
  unfold roundHalfEven
  split_ifs with h1 h2 h3
  · exact ⟨le_refl _, hfc⟩
  · have hlt : (⌊q⌋ : ℚ) < q := by linarith
    have h4 : ⌊q⌋ < ⌈q⌉ := Int.lt_ceil.mpr hlt
    exact ⟨by omega, by omega⟩
  · exact ⟨le_refl _, hfc⟩
  · have hge : (1 : ℚ) / 2 ≤ q - ⌊q⌋ := not_lt.mp h1
    have hlt : (⌊q⌋ : ℚ) < q := by linarith
    have h4 : ⌊q⌋ < ⌈q⌉ := Int.lt_ceil.mpr hlt
    exact ⟨by omega, by omega⟩

lemma normalizeScore_nonneg {s : ℚ} (h0 : 0 ≤ s) : 0 ≤ normalizeScore s := by
  have hf : (0 : ℤ) ≤ ⌊s * 100 * 100⌋ := Int.floor_nonneg.mpr (by positivity)
  have h := (roundHalfEven_bounds (s * 100 * 100)).1
  unfold normalizeScore
  have : (0 : ℚ) ≤ (roundHalfEven (s * 100 * 100) : ℚ) := by
    exact_mod_cast le_trans hf h
  positivity

lemma normalizeScore_le_100 {s : ℚ} (h1 : s ≤ 1) : normalizeScore s ≤ 100 := by
  have hc : ⌈s * 100 * 100⌉ ≤ (10000 : ℤ) := by
    rw [Int.ceil_le]
    push_cast
    nlinarith
  have h := (roundHalfEven_bounds (s * 100 * 100)).2
  unfold normalizeScore
  rw [div_le_iff (by norm_num : (0 : ℚ) < 100)]
  calc (roundHalfEven (s * 100 * 100) : ℚ) ≤ (10000 : ℤ) := by
        exact_mod_cast le_trans h hc
    _ = 100 * 100 := by norm_num

/-- C9 (amended): every scored result returned by `query_similar_products`
comes from a store match with the same identifier and metadata and with
`score = round(native_score * 100, 2)`; this scaled score lies in the range
0-100 whenever the store's native similarity score lies in `[0, 1]` (the code
never clamps, so nothing more can be guaranteed). -/
theorem query_scores_scaled (emb : List ℚ) (top_k : ℕ) (index_type : String)
    (ms : List StoreMatch) (rs : List ScoredResult) (r : ScoredResult)
    (h : (query_similar_products emb top_k index_type (Except.ok ms)).result =
      Except.ok rs)
    (hr : r ∈ rs) :
    ∃ m ∈ ms, r.product_id = m.id ∧ r.metadata = m.metadata ∧
      r.score = normalizeScore m.score ∧
      (0 ≤ m.score → m.score ≤ 1 → 0 ≤ r.score ∧ r.score ≤ 100) := by
  rw [query_similar_products.eq_def] at h
  by_cases hdim : emb.length ≠ expectedDim index_type
  · rw [if_pos hdim] at h
    exact absurd h (by simp)
  · rw [if_neg hdim] at h
    simp only [Except.ok.injEq] at h
    subst h
    have hmem : r ∈ ms.map (fun m =>
        ({ product_id := m.id, score := normalizeScore m.score,
           metadata := m.metadata } : ScoredResult)) :=
      (List.perm_insertionSort scoreGe _).mem_iff.mp hr
    obtain ⟨m, hm, hmr⟩ := List.mem_map.mp hmem
    refine ⟨m, hm, ?_, ?_, ?_, ?_⟩
    · rw [← hmr]
    · rw [← hmr]
    · rw [← hmr]
    · intro hs0 hs1
      rw [← hmr]
      exact ⟨normalizeScore_nonneg hs0, normalizeScore_le_100 hs1⟩

lemma roundHalfEven_intCast (n : ℤ) : roundHalfEven ((n : ℚ)) = n := by
  unfold roundHalfEven
  rw [Int.floor_intCast, sub_self, if_pos (by norm_num : (0 : ℚ) < 1/2)]

lemma normalizeScore_two : normalizeScore 2 = 200 := by
  have h : ((2 : ℚ) * 100 * 100) = ((20000 : ℤ) : ℚ) := by norm_num
  unfold normalizeScore
  rw [h, roundHalfEven_intCast]
  norm_num

lemma normalizeScore_half : normalizeScore (1/2) = 50 := by
  have h : ((1/2 : ℚ) * 100 * 100) = ((5000 : ℤ) : ℚ) := by norm_num
  unfold normalizeScore
  rw [h, roundHalfEven_intCast]
  norm_num

lemma query_ok_result (emb : List ℚ) (top_k : ℕ) (index_type : String)
    (ms : List StoreMatch) (h : emb.length = expectedDim index_type) :
    (query_similar_products emb top_k index_type (Except.ok ms)).result =
      Except.ok (List.insertionSort scoreGe (ms.map (fun m =>
        ({ product_id := m.id, score := normalizeScore m.score,
           metadata := m.metadata } : ScoredResult)))) := by
  rw [query_similar_products.eq_def, if_neg (by rw [h]; exact fun hc => hc rfl)]

lemma query_err_result (emb : List ℚ) (top_k : ℕ) (index_type : String)
    (err : String) (h : emb.length = expectedDim index_type) :
    (query_similar_products emb top_k index_type (Except.error err)).result =
      Except.ok [] := by
  rw [query_similar_products.eq_def, if_neg (by rw [h]; exact fun hc => hc rfl)]

lemma query_half_concrete :
    (query_similar_products (List.replicate 512 (0 : ℚ)) 10 "image"
        (Except.ok [⟨"p", 1/2, []⟩])).result =
      Except.ok [(⟨"p", 50, []⟩ : ScoredResult)] := by
  rw [query_ok_result _ _ _ _ (by simp [expectedDim])]
  simp only [List.map_cons, List.map_nil, List.insertionSort, List.orderedInsert]
  rw [normalizeScore_half]

/-- Witness for C9 (amended): a native score of 1/2 becomes the scaled
score 50. -/
theorem query_scores_scaled_witness :
    (query_similar_products (List.replicate 512 (0 : ℚ)) 10 "image"
        (Except.ok [⟨"p", 1/2, []⟩])).result =
      Except.ok [(⟨"p", 50, []⟩ : ScoredResult)] ∧
    (⟨"p", 50, []⟩ : ScoredResult) ∈ [(⟨"p", 50, []⟩ : ScoredResult)] ∧
    ∃ m ∈ [(⟨"p", 1/2, []⟩ : StoreMatch)],
      (⟨"p", 50, []⟩ : ScoredResult).product_id = m.id ∧
      (⟨"p", 50, []⟩ : ScoredResult).metadata = m.metadata ∧
      (⟨"p", 50, []⟩ : ScoredResult).score = normalizeScore m.score ∧
      (0 ≤ m.score → m.score ≤ 1 →
        0 ≤ (⟨"p", 50, []⟩ : ScoredResult).score ∧
        (⟨"p", 50, []⟩ : ScoredResult).score ≤ 100) :=
  ⟨query_half_concrete, List.mem_singleton.mpr rfl,
    query_scores_scaled (List.replicate 512 (0 : ℚ)) 10 "image"
      [⟨"p", 1/2, []⟩] [⟨"p", 50, []⟩] ⟨"p", 50, []⟩ query_half_concrete
      (List.mem_singleton.mpr rfl)⟩

/-- Counterexample for C9 as stated: a store match with native score 2 (the
code never clamps) yields a returned scored result whose score is 200,
outside the range 0-100. -/
theorem query_score_out_of_range_counterexample :
    (query_similar_products (List.replicate 512 (0 : ℚ)) 10 "image"
        (Except.ok [⟨"p", 2, []⟩])).result =
      Except.ok [(⟨"p", 200, []⟩ : ScoredResult)] ∧
    ¬ ((⟨"p", 200, []⟩ : ScoredResult).score ≤ 100) := by
  constructor
  · rw [query_ok_result _ _ _ _ (by simp [expectedDim])]
    simp only [List.map_cons, List.map_nil, List.insertionSort, List.orderedInsert]
    rw [normalizeScore_two]
  · norm_num

lemma dedup_ne_nil {l : List ScoredResult} (h : l ≠ []) :
    deduplicate_and_rank l ≠ [] := by
  intro hc
  have hlen := (dedup_perm l).length_eq
  rw [hc] at hlen
  have h2 := mergeDict_ne_nil h
  cases hm : mergeDict l with
  | nil => exact h2 hm
  | cons a as =>
    rw [hm] at hlen
    simp at hlen

lemma text_search_ok_embedding (query : String) (top_k : ℕ) (emb : List ℚ)
    (store : Except String (List StoreMatch)) (hq : pyStrip query ≠ "") :
    similar_product_text_search query top_k (Except.ok emb) store =
      match (query_similar_products emb top_k "text" store).result with
      | Except.error e =>
          Except.error ⟨500, "Failed to perform text search: " ++ e⟩
      | Except.ok results =>
          Except.ok { status := true, query := query,
                      count := results.length, results := results } := by
  rw [similar_product_text_search.eq_def, if_neg hq]

/-- Counterexample for C6 as stated: with a non-blank query, a healthy
embedding call and a vector store that raises ("connection refused"),
`similar_product_text_search` returns a successful response with zero
results instead of an error response. -/
theorem text_search_store_failure_counterexample :
    similar_product_text_search "shoes" 10
        (Except.ok (List.replicate 768 (0 : ℚ)))
        (Except.error "connection refused") =
      Except.ok { status := true, query := "shoes", count := 0,
                  results := [] } := by
  rw [text_search_ok_embedding _ _ _ _ (by decide),
    query_err_result _ _ _ _ (by simp [expectedDim])]
  rfl

/-- C6 (amended): a vector-store I/O failure during a direct text search is
caught inside `query_similar_products` and converted into an empty result
list, so the controller returns a successful response with zero results;
only the dimension-check `ValueError` propagates as a request failure. -/
theorem text_search_store_failure_empty_success (query : String) (top_k : ℕ)
    (emb : List ℚ) (err : String)
    (hq : pyStrip query ≠ "") (hlen : emb.length = 768) :
    similar_product_text_search query top_k (Except.ok emb)
        (Except.error err) =
      Except.ok { status := true, query := query, count := 0,
                  results := [] } := by
  rw [text_search_ok_embedding _ _ _ _ hq,
    query_err_result _ _ _ _ (by rw [hlen]; rfl)]
  rfl

/-- Witness for C6 (amended) at a concrete non-blank query and failing
store. -/
theorem text_search_store_failure_empty_success_witness :
    pyStrip "red shoes" ≠ "" ∧ (List.replicate 768 (0 : ℚ)).length = 768 ∧
    similar_product_text_search "red shoes" 10
        (Except.ok (List.replicate 768 (0 : ℚ))) (Except.error "boom") =
      Except.ok { status := true, query := "red shoes", count := 0,
                  results := [] } :=
  ⟨by decide, by simp,
    text_search_store_failure_empty_success "red shoes" 10
      (List.replicate 768 (0 : ℚ)) "boom" (by decide) (by simp)⟩

/-- C7: whenever the concatenated results of the enabled branches are empty,
`get_recommendations` fails with HTTP 404, and a request never yields a
successful response carrying an empty recommendation list. -/
theorem recommendations_no_empty_success (product_id : String)
    (product_name description image_url : Option String) (mode : String)
    (top_k : ℕ) (imageFetchEmbed : Except String (List ℚ))
    (imageStore : Except String (List StoreMatch))
    (textEmbed : Except String (List ℚ))
    (textStore : Except String (List StoreMatch))
    (hpid : product_id ≠ "") :
    (combinedRecommendations product_name description image_url mode top_k
        imageFetchEmbed imageStore textEmbed textStore = [] →
      get_recommendations product_id product_name description image_url mode
        top_k imageFetchEmbed imageStore textEmbed textStore =
        Except.error ⟨404, "No recommendations found."⟩) ∧
    ∀ resp, get_recommendations product_id product_name description image_url
        mode top_k imageFetchEmbed imageStore textEmbed textStore =
        Except.ok resp → resp.recommendations ≠ [] := by
  constructor
  · intro hc
    unfold get_recommendations
    rw [if_neg hpid, if_pos hc]
  · intro resp h
    unfold get_recommendations at h
    rw [if_neg hpid] at h
    by_cases hc : combinedRecommendations product_name description image_url
        mode top_k imageFetchEmbed imageStore textEmbed textStore = []
    · rw [if_pos hc] at h
      exact Except.noConfusion h
    · rw [if_neg hc] at h
      have hresp := Except.ok.inj h
      rw [← hresp]
      exact dedup_ne_nil hc

/-- Witness for C7: a hybrid request with no image URL and no name or
description skips both branches, and the response is the 404 error. -/
theorem recommendations_no_empty_success_witness :
    ("p1" : String) ≠ "" ∧
    ((combinedRecommendations none none none "hybrid" 10 (Except.ok [])
        (Except.ok []) (Except.ok []) (Except.ok []) = [] →
      get_recommendations "p1" none none none "hybrid" 10 (Except.ok [])
        (Except.ok []) (Except.ok []) (Except.ok []) =
        Except.error ⟨404, "No recommendations found."⟩) ∧
    ∀ resp, get_recommendations "p1" none none none "hybrid" 10
        (Except.ok []) (Except.ok []) (Except.ok []) (Except.ok []) =
        Except.ok resp → resp.recommendations ≠ []) :=
  ⟨by decide,
    recommendations_no_empty_success "p1" none none none "hybrid" 10
      (Except.ok []) (Except.ok []) (Except.ok []) (Except.ok [])
      (by decide)⟩

/-- Counterexample for C8 as stated: for name "Shoe", description "Red",
category "Footwear", brand "Acme" and a price rendered as "5.0", the code
builds `"Shoe. Red. Category: Footwear. Brand: Acme. Price: 5.0."` — with a
colon after `Price` — while the claimed format gives
`"Shoe. Red. Category: Footwear. Brand: Acme. Price 5.0."`. -/
theorem text_input_format_counterexample :
    text_input (fun _ => "5.0")
        ⟨"http://img", "Shoe", "Red", "Footwear", some "Acme", some 5, none⟩ =
      "Shoe. Red. Category: Footwear. Brand: Acme. Price: 5.0." ∧
    text_input (fun _ => "5.0")
        ⟨"http://img", "Shoe", "Red", "Footwear", some "Acme", some 5, none⟩ ≠
      "Shoe. Red. Category: Footwear. Brand: Acme. Price 5.0." := by
  constructor
  · rfl
  · decide

/-- C8 (amended): the combined text string submitted for text embedding equals
`"{name}. {description}. Category: {category}. Brand: {brand or ''}. Price: {price or ''}."`
— a colon after `Price`, and falsy optional fields rendered as the empty
string. -/
theorem text_input_amended (showPrice : ℚ → String) (p : Product) :
    text_input showPrice p =
      p.name ++ ". " ++ p.description ++ ". Category: " ++ p.category ++
        ". Brand: " ++ orEmpty p.brand ++ ". Price: " ++
        priceOrEmpty showPrice p.price ++ "." := by
  unfold text_input
  simp only [String.append_assoc]
  rfl
